import Mathlib

/-!
Verification of the jdat_notebooks repository specification.

This file shallowly embeds the deciding code of the repository and settles
the spec's claims about it:

* the per-spaxel continuum-fitting loop of
  `notebooks/IFU_cube_continuum_fit/NGC4151_FeII_ContinuumFit.ipynb`;
* the `set-matrix` notebook-selection step of the "Build HTML on merge"
  GitHub Actions workflow;
* the documented Box download + zip extraction helper;
* the CircleCI gh-pages deployment script;
* the git-push retry loops of the "Build HTML on merge" and
  "Deprecate Notebook" workflows;
* the cached-conda-environment CI setup script;
* the inventory of remote data sources fetched by the notebooks;
* the "Deprecate Notebook" workflow.

Machine reals are modelled by `ℚ` (exact arithmetic); shell scripts and
workflow steps are modelled as explicit traces or state transformers.
-/

namespace IFU

/-!
Embedding of the continuum-subtraction cell of
`NGC4151_FeII_ContinuumFit.ipynb`:

```python
cont_sub_cube=np.zeros([nz,ny,nx])
cont_psf_cube=np.zeros([nz,ny,nx])

for i in range(1, nx-2):
    for j in range(1, ny-2):
        flux1 = cube[:,j,i]
        cont_fit = np.polyfit(wave[continuummin:continuummax], flux1[continuummin:continuummax], 1)
        fitval = np.poly1d(cont_fit)
        continuum = fitval(wave)
        cont_sub_cube[:,j,i]= flux1 - continuum
        cont_psf_cube[:,j,i]= continuum
```

A cube is indexed `cube k j i` (wavelength, y, x), matching `cube[k,j,i]`.
-/

/-- A data cube `cube[k, j, i]` with rational flux values. -/
def Cube : Type := Nat → Nat → Nat → ℚ

/-- `zeroCube` models `np.zeros([nz,ny,nx])` (all entries zero). -/
def zeroCube : Cube := fun _ _ _ => 0

/-- Python `range(1, n-2)` (the loop bounds used for both spatial axes):
the integers `i` with `1 ≤ i < n - 2`, in increasing order. -/
def loopRange (n : Nat) : List Nat := List.range' 1 (n - 2 - 1)

/-- Python slice `f[a:b]` of an array viewed as a function on indices
(the notebook uses it with `a ≤ b ≤` the array length). -/
def pySlice (f : Nat → ℚ) (a b : Nat) : List ℚ := ((List.range b).drop a).map f

/-- `np.polyfit(xs, ys, 1)`: the least-squares straight line through the
points `(xs[t], ys[t])`, returned as `(slope, intercept)`; computed by the
normal equations (the case of a singular normal matrix is mapped to `(0,0)`,
matching that no notebook input hits it). -/
def polyfit1 (xs ys : List ℚ) : ℚ × ℚ :=
  let n : ℚ := xs.length
  let sx := xs.sum
  let sy := ys.sum
  let sxx := (xs.map (fun x => x * x)).sum
  let sxy := (List.zipWith (fun x y => x * y) xs ys).sum
  let d := n * sxx - sx * sx
  if d = 0 then (0, 0)
  else ((n * sxy - sx * sy) / d, (sxx * sy - sx * sxy) / d)

/-- The fitted continuum value at wavelength index `k`:
`np.poly1d(np.polyfit(wave[cmin:cmax], flux[cmin:cmax], 1))(wave[k])`. -/
def continuumAt (wave flux : Nat → ℚ) (cmin cmax k : Nat) : ℚ :=
  let p := polyfit1 (pySlice wave cmin cmax) (pySlice flux cmin cmax)
  p.1 * wave k + p.2

/-- `c[:, j, i] = v` : write the spectrum `v` into spatial pixel `(i, j)`. -/
def writeSpaxel (c : Cube) (j i : Nat) (v : Nat → ℚ) : Cube :=
  fun k j' i' => if j' = j ∧ i' = i then v k else c k j' i'

/-- The nested loop, writing `assign i j` into spaxel `(i,j)` of an
accumulator cube for `i ∈ range(1, nx-2)`, `j ∈ range(1, ny-2)`. -/
def spaxelLoop (nx ny : Nat) (assign : Nat → Nat → Nat → ℚ) (c0 : Cube) : Cube :=
  (loopRange nx).foldl
    (fun acc i =>
      (loopRange ny).foldl (fun acc2 j => writeSpaxel acc2 j i (assign i j)) acc)
    c0

/-- The spectrum written into `cont_sub_cube[:,j,i]`: `flux1 - continuum`. -/
def contSubAssign (cube : Cube) (wave : Nat → ℚ) (cmin cmax : Nat)
    (i j k : Nat) : ℚ :=
  cube k j i - continuumAt wave (fun k' => cube k' j i) cmin cmax k

/-- The spectrum written into `cont_psf_cube[:,j,i]`: `continuum`. -/
def contPsfAssign (cube : Cube) (wave : Nat → ℚ) (cmin cmax : Nat)
    (i j k : Nat) : ℚ :=
  continuumAt wave (fun k' => cube k' j i) cmin cmax k

/-- Final state of `cont_sub_cube` after the loop (the loop's two array
writes are independent, so each array is the fold of its own write). -/
def contSubCube (cube : Cube) (wave : Nat → ℚ) (cmin cmax nx ny : Nat) : Cube :=
  spaxelLoop nx ny (contSubAssign cube wave cmin cmax) zeroCube

/-- Final state of `cont_psf_cube` after the loop. -/
def contPsfCube (cube : Cube) (wave : Nat → ℚ) (cmin cmax nx ny : Nat) : Cube :=
  spaxelLoop nx ny (contPsfAssign cube wave cmin cmax) zeroCube

theorem mem_loopRange {n i : Nat} : i ∈ loopRange n ↔ 1 ≤ i ∧ i < n - 2 := by
  rw [loopRange, List.mem_range'_1]
  omega

theorem innerFold_eval (assign : Nat → Nat → Nat → ℚ) (i : Nat) (ys : List Nat)
    (acc : Cube) (k j0 i0 : Nat) :
    (ys.foldl (fun acc2 j => writeSpaxel acc2 j i (assign i j)) acc) k j0 i0 =
      if i0 = i ∧ j0 ∈ ys then assign i j0 k else acc k j0 i0 := by
  induction ys generalizing acc with
  | nil => simp
  | cons y ys ih =>
    rw [List.foldl_cons, ih]
    by_cases h1 : i0 = i ∧ j0 ∈ ys
    · rw [if_pos h1, if_pos ⟨h1.1, List.mem_cons_of_mem _ h1.2⟩]
    · rw [if_neg h1]
      show (if j0 = y ∧ i0 = i then assign i y k else acc k j0 i0) = _
      by_cases h2 : j0 = y ∧ i0 = i
      · rw [if_pos h2,
          if_pos ⟨h2.2, by rw [h2.1]; exact List.mem_cons_self _ _⟩, h2.1]
      · rw [if_neg h2, if_neg ?_]
        rintro ⟨hi, hj⟩
        rcases List.mem_cons.mp hj with h | h
        · exact h2 ⟨h, hi⟩
        · exact h1 ⟨hi, h⟩

theorem spaxelLoop_eval (nx ny : Nat) (assign : Nat → Nat → Nat → ℚ)
    (k j0 i0 : Nat) :
    spaxelLoop nx ny assign zeroCube k j0 i0 =
      if i0 ∈ loopRange nx ∧ j0 ∈ loopRange ny then assign i0 j0 k else 0 := by
  have h : ∀ (xs : List Nat) (acc : Cube),
      (xs.foldl
        (fun acc i =>
          (loopRange ny).foldl (fun acc2 j => writeSpaxel acc2 j i (assign i j)) acc)
        acc) k j0 i0 =
      if i0 ∈ xs ∧ j0 ∈ loopRange ny then assign i0 j0 k else acc k j0 i0 := by
    intro xs
    induction xs with
    | nil => intro acc; simp
    | cons x xs ih =>
      intro acc
      rw [List.foldl_cons, ih, innerFold_eval]
      by_cases h1 : i0 ∈ xs ∧ j0 ∈ loopRange ny
      · rw [if_pos h1, if_pos ⟨List.mem_cons_of_mem _ h1.1, h1.2⟩]
      · rw [if_neg h1]
        by_cases h2 : i0 = x ∧ j0 ∈ loopRange ny
        · rw [if_pos h2,
            if_pos ⟨by rw [h2.1]; exact List.mem_cons_self _ _, h2.2⟩, h2.1]
        · rw [if_neg h2, if_neg ?_]
          rintro ⟨hi, hj⟩
          rcases List.mem_cons.mp hi with h | h
          · exact h2 ⟨h, hj⟩
          · exact h1 ⟨h, hj⟩
  exact h (loopRange nx) zeroCube

end IFU

/-- C1: the claim that the continuum-subtraction loop covers every spaxel of
the cube is false: the loops run `for i in range(1, nx-2)`, `for j in
range(1, ny-2)`, skipping the borders.  Concretely, for a 4×4-spaxel cube
with flux `k²` at wavelength index `k` and continuum window `[0, 2)`,
spaxel `(0,0)` is a valid spaxel (`0 < 4`) but `cont_sub_cube[2,0,0]` is
left at `0` instead of holding flux − fitted continuum (which is `2`). -/
theorem c1_counterexample :
    (0 : Nat) < 4 ∧ (0 : Nat) < 4 ∧
    IFU.contSubCube (fun k _ _ => (k : ℚ) * k) (fun k => (k : ℚ)) 0 2 4 4 2 0 0 ≠
      (fun k _ _ => (k : ℚ) * k) 2 0 0 -
        IFU.continuumAt (fun k => (k : ℚ)) (fun k' => (k' : ℚ) * k') 0 2 2 := by
  refine ⟨by decide, by decide, ?_⟩
  have h1 : IFU.contSubCube (fun k _ _ => (k : ℚ) * k) (fun k => (k : ℚ))
      0 2 4 4 2 0 0 = 0 := by decide
  rw [h1]
  norm_num [IFU.continuumAt, IFU.polyfit1, IFU.pySlice, List.range_succ]

/-- C1 (amended): the continuum-subtraction loop iterates over the spaxels
`(i,j)` with `1 ≤ i < nx-2` and `1 ≤ j < ny-2` (Python
`range(1, nx-2)` × `range(1, ny-2)`), not over every spaxel of the cube.
For each spaxel it visits, it fits a degree-1 polynomial to that spaxel's
flux over the wavelength window `[continuummin, continuummax)` and writes
the continuum-subtracted spectrum into `cont_sub_cube[:,j,i]` and the
fitted continuum into `cont_psf_cube[:,j,i]`; every spaxel it skips stays
at the initial value `0` in both output cubes. -/
theorem c1_continuum_loop (cube : IFU.Cube) (wave : Nat → ℚ)
    (cmin cmax nx ny i j k : Nat) :
    (1 ≤ i → i < nx - 2 → 1 ≤ j → j < ny - 2 →
      IFU.contSubCube cube wave cmin cmax nx ny k j i =
        cube k j i - IFU.continuumAt wave (fun k' => cube k' j i) cmin cmax k ∧
      IFU.contPsfCube cube wave cmin cmax nx ny k j i =
        IFU.continuumAt wave (fun k' => cube k' j i) cmin cmax k) ∧
    (¬(1 ≤ i ∧ i < nx - 2 ∧ 1 ≤ j ∧ j < ny - 2) →
      IFU.contSubCube cube wave cmin cmax nx ny k j i = 0 ∧
      IFU.contPsfCube cube wave cmin cmax nx ny k j i = 0) := by
  constructor
  · intro h1 h2 h3 h4
    constructor
    · rw [IFU.contSubCube, IFU.spaxelLoop_eval,
        if_pos ⟨IFU.mem_loopRange.mpr ⟨h1, h2⟩, IFU.mem_loopRange.mpr ⟨h3, h4⟩⟩]
      rfl
    · rw [IFU.contPsfCube, IFU.spaxelLoop_eval,
        if_pos ⟨IFU.mem_loopRange.mpr ⟨h1, h2⟩, IFU.mem_loopRange.mpr ⟨h3, h4⟩⟩]
      rfl
  · intro h
    have hnot : ¬(i ∈ IFU.loopRange nx ∧ j ∈ IFU.loopRange ny) := by
      rw [IFU.mem_loopRange, IFU.mem_loopRange]
      tauto
    constructor
    · rw [IFU.contSubCube, IFU.spaxelLoop_eval, if_neg hnot]
    · rw [IFU.contPsfCube, IFU.spaxelLoop_eval, if_neg hnot]

/-- Witness for C1 (amended) at a concrete input: a constant-flux 4×4 cube,
linear wavelength axis, window `[0,2)`, processed spaxel `(1,1)`. -/
theorem c1_continuum_loop_witness :
    IFU.contSubCube (fun _ _ _ => (1 : ℚ)) (fun k => (k : ℚ)) 0 2 4 4 0 1 1 = 0 ∧
    IFU.contPsfCube (fun _ _ _ => (1 : ℚ)) (fun k => (k : ℚ)) 0 2 4 4 0 1 1 = 1 := by
  have h := (c1_continuum_loop (fun _ _ _ => (1 : ℚ)) (fun k => (k : ℚ))
    0 2 4 4 1 1 0).1 (by decide) (by decide) (by decide) (by decide)
  refine ⟨h.1.trans ?_, h.2.trans ?_⟩ <;>
    norm_num [IFU.continuumAt, IFU.polyfit1, IFU.pySlice, List.range_succ]

/-- C9: on every spaxel `(i,j)` that the nested loops process, and at every
wavelength index `k`, `cont_sub_cube[k,j,i] + cont_psf_cube[k,j,i]` equals
the original cube flux `cube[k,j,i]`: the two output cubes are an exact
additive decomposition of the input on the processed spaxels. -/
theorem c9_additive_decomposition (cube : IFU.Cube) (wave : Nat → ℚ)
    (cmin cmax nx ny i j k : Nat)
    (hi : i ∈ IFU.loopRange nx) (hj : j ∈ IFU.loopRange ny) :
    IFU.contSubCube cube wave cmin cmax nx ny k j i +
      IFU.contPsfCube cube wave cmin cmax nx ny k j i = cube k j i := by
  rw [IFU.contSubCube, IFU.contPsfCube, IFU.spaxelLoop_eval, IFU.spaxelLoop_eval,
    if_pos ⟨hi, hj⟩, if_pos ⟨hi, hj⟩]
  simp only [IFU.contSubAssign, IFU.contPsfAssign]
  ring

/-- Witness for C9 at a concrete input: the 4×4 cube with flux `k + j + i`,
processed spaxel `(1,1)`, wavelength index `0`. -/
theorem c9_additive_decomposition_witness :
    IFU.contSubCube (fun k j i => (k : ℚ) + j + i) (fun k => (k : ℚ))
        0 2 4 4 0 1 1 +
      IFU.contPsfCube (fun k j i => (k : ℚ) + j + i) (fun k => (k : ℚ))
        0 2 4 4 0 1 1 = 2 := by
  have h := c9_additive_decomposition (fun k j i => (k : ℚ) + j + i)
    (fun k => (k : ℚ)) 0 2 4 4 1 1 0 (by decide) (by decide)
  exact h.trans (by norm_num)

namespace Paths

/-!
Character-level path operations shared by the CI embeddings.  File paths
are modelled as their lists of characters so that all operations are
structurally computable.
-/

/-- A file path, as its list of characters. -/
abbrev Path := List Char

/-- `[[ "$s" == *suffixChars ]]` — shell glob suffix test. -/
def hasSuffix (s suffixChars : Path) : Bool := List.isSuffixOf suffixChars s

/-- Split a character list at a separator; like Python `str.split(sep)`,
the result always has one more part than there are separators. -/
def splitSep (sep : Char) : List Char → List (List Char)
  | [] => [[]]
  | c :: cs =>
    match splitSep sep cs with
    | [] => [[]]
    | p :: ps => if c = sep then [] :: p :: ps else (c :: p) :: ps

/-- Join parts with a separator (left inverse of `splitSep`). -/
def joinSep (sep : Char) : List (List Char) → List Char
  | [] => []
  | [p] => p
  | p :: ps => p ++ sep :: joinSep sep ps

/-- `dirname "$file"` for the relative slash-separated paths the CI
handles: everything before the last `/`, or `"."` when there is none. -/
def dirname (p : Path) : Path :=
  let parts := splitSep '/' p
  if parts.length ≤ 1 then ['.'] else joinSep '/' parts.dropLast

/-- `basename`-style last path component (used by `find -name` matching). -/
def basename (p : Path) : Path :=
  match (splitSep '/' p).getLast? with
  | some l => l
  | none => p

end Paths

namespace BuildHTML

/-!
Embedding of the `set-matrix` step of the "Build HTML on merge" GitHub
Actions workflow:

```bash
notebooks=()
notebook_changed=false
for file in "${files[@]}"; do
  if [[ "$file" == *.ipynb ]]; then
    notebook_changed=true
    notebooks+=("$file")
  fi
done
if [ "$notebook_changed" = false ]; then
  for file in "${files[@]}"; do
    if [[ "$file" == *requirements.txt ]]; then
      dir=$(dirname "$file")
      while IFS= read -r nb; do
        notebooks+=("$nb")
      done < <(find "$dir" -maxdepth 1 -type f -name '*.ipynb')
    fi
  done
fi
unique_notebooks=($(printf "%s\n" "${notebooks[@]}" | sort -u))
if [ ${#unique_notebooks[@]} -eq 0 ]; then
  echo "has_notebooks=false" >> "$GITHUB_OUTPUT"
  echo "matrix=[]" >> "$GITHUB_OUTPUT"
else
  echo "has_notebooks=true" >> "$GITHUB_OUTPUT"
  ...
fi
```

The repository checkout is modelled as the list of paths of its files.
-/

open Paths

/-- `[[ "$file" == *.ipynb ]]`. -/
def isNotebookFile (f : Path) : Bool := hasSuffix f ".ipynb".data

/-- `[[ "$file" == *requirements.txt ]]`. -/
def isRequirementsFile (f : Path) : Bool := hasSuffix f "requirements.txt".data

/-- `find "$dir" -maxdepth 1 -type f -name '*.ipynb'`: the notebook files
directly (non-recursively) in `dir`, given the checkout's file list `fs`. -/
def notebooksInDir (fs : List Path) (dir : Path) : List Path :=
  fs.filter (fun p => decide (dirname p = dir) && isNotebookFile p)

/-- `sort -u`: sort lexicographically and drop duplicates. -/
def sortUnique (l : List Path) : List Path :=
  (List.insertionSort (fun a b => a ≤ b) l).dedup

/-- The notebook list built by the `set-matrix` step from the changed-files
list `changed`: the changed notebooks when any changed file is a notebook;
otherwise the notebooks directly in the folder of each changed
requirements.txt; deduplicated. -/
def selectedNotebooks (fs changed : List Path) : List Path :=
  let fromChanged := changed.filter isNotebookFile
  let notebooks :=
    if fromChanged.isEmpty then
      (changed.filter isRequirementsFile).flatMap
        (fun f => notebooksInDir fs (dirname f))
    else fromChanged
  sortUnique notebooks

/-- The two outputs written to `$GITHUB_OUTPUT` by the `set-matrix` step. -/
structure MatrixOutput where
  matrix : List Path
  has_notebooks : Bool

/-- The `set-matrix` step: empty selection ⇒ `has_notebooks=false`,
`matrix=[]`; otherwise the selection with `has_notebooks=true`. -/
def setMatrix (fs changed : List Path) : MatrixOutput :=
  let u := selectedNotebooks fs changed
  if u.isEmpty then ⟨[], false⟩ else ⟨u, true⟩

/-- The `if:` gate of the `execute-notebooks` job:
`github.event.pull_request.merged == true && has_notebooks == 'true'`. -/
def executeJobRuns (merged : Bool) (out : MatrixOutput) : Bool :=
  merged && out.has_notebooks

theorem mem_sortUnique {a : Path} {l : List Path} :
    a ∈ sortUnique l ↔ a ∈ l := by
  rw [sortUnique, List.mem_dedup]
  exact (List.perm_insertionSort _ l).mem_iff

theorem setMatrix_matrix (fs changed : List Path) :
    (setMatrix fs changed).matrix = selectedNotebooks fs changed := by
  unfold setMatrix
  by_cases h : (selectedNotebooks fs changed).isEmpty
  · rw [if_pos h]
    exact (List.isEmpty_iff.mp h).symm
  · rw [if_neg h]

theorem nodup_sortUnique (l : List Path) : (sortUnique l).Nodup :=
  List.nodup_dedup _

end BuildHTML

/-- C2: in the "Build HTML on merge" workflow, the `set-matrix` step selects
notebooks as follows: if any changed file ends in `.ipynb`, the selection is
exactly the changed `.ipynb` files; otherwise it is the `.ipynb` files found
directly (non-recursively, maxdepth 1) in the folder of each changed
requirements.txt; duplicates are removed; and when the resulting set is
empty, `has_notebooks` is set to `false` (with `matrix=[]`) and the
notebook-execution job is skipped. -/
theorem c2_set_matrix (fs changed : List Paths.Path) (merged : Bool) :
    ((∃ f ∈ changed, BuildHTML.isNotebookFile f = true) →
      ∀ n, n ∈ (BuildHTML.setMatrix fs changed).matrix ↔
        n ∈ changed ∧ BuildHTML.isNotebookFile n = true) ∧
    ((∀ f ∈ changed, BuildHTML.isNotebookFile f = false) →
      ∀ n, n ∈ (BuildHTML.setMatrix fs changed).matrix ↔
        ∃ f ∈ changed, BuildHTML.isRequirementsFile f = true ∧
          n ∈ BuildHTML.notebooksInDir fs (Paths.dirname f)) ∧
    (BuildHTML.setMatrix fs changed).matrix.Nodup ∧
    (BuildHTML.selectedNotebooks fs changed = [] →
      (BuildHTML.setMatrix fs changed).matrix = [] ∧
      (BuildHTML.setMatrix fs changed).has_notebooks = false ∧
      BuildHTML.executeJobRuns merged (BuildHTML.setMatrix fs changed) = false) := by
  refine ⟨?_, ?_, ?_, ?_⟩
  · rintro ⟨f, hf, hnb⟩ n
    have hne : ¬((changed.filter BuildHTML.isNotebookFile).isEmpty = true) := by
      rw [List.isEmpty_iff]
      intro h0
      rw [List.filter_eq_nil_iff] at h0
      exact h0 f hf hnb
    rw [BuildHTML.setMatrix_matrix, BuildHTML.selectedNotebooks]
    simp only [if_neg hne]
    rw [BuildHTML.mem_sortUnique, List.mem_filter]
  · intro hall n
    have h0 : changed.filter BuildHTML.isNotebookFile = [] :=
      List.filter_eq_nil_iff.mpr (fun a ha => by simp [hall a ha])
    have he : (changed.filter BuildHTML.isNotebookFile).isEmpty = true :=
      List.isEmpty_iff.mpr h0
    rw [BuildHTML.setMatrix_matrix, BuildHTML.selectedNotebooks]
    simp only [if_pos he]
    rw [BuildHTML.mem_sortUnique, List.mem_flatMap]
    constructor
    · rintro ⟨a, ha, hn⟩
      rw [List.mem_filter] at ha
      exact ⟨a, ha.1, ha.2, hn⟩
    · rintro ⟨a, ha, hreq, hn⟩
      exact ⟨a, List.mem_filter.mpr ⟨ha, hreq⟩, hn⟩
  · rw [BuildHTML.setMatrix_matrix]
    exact BuildHTML.nodup_sortUnique _
  · intro h0
    have he : (BuildHTML.selectedNotebooks fs changed).isEmpty = true :=
      List.isEmpty_iff.mpr h0
    unfold BuildHTML.setMatrix
    rw [if_pos he]
    exact ⟨rfl, rfl, Bool.and_false merged⟩

/-- Witness for C2 at a concrete input: only `a/requirements.txt` changed,
and the checkout holds notebooks `a/x.ipynb`, `a/y.ipynb`, `b/z.ipynb`; the
matrix then contains `a/x.ipynb`. -/
theorem c2_set_matrix_witness :
    "a/x.ipynb".data ∈ (BuildHTML.setMatrix
      ["a/x.ipynb".data, "a/y.ipynb".data, "b/z.ipynb".data]
      ["a/requirements.txt".data]).matrix := by
  exact ((c2_set_matrix
      ["a/x.ipynb".data, "a/y.ipynb".data, "b/z.ipynb".data]
      ["a/requirements.txt".data] true).2.1 (by decide) _).mpr
    ⟨"a/requirements.txt".data, by decide, by decide, by decide⟩

namespace DataDownload

/-!
Embedding of the documented Box download + zip extraction helper
(`docs/data_files.rst`, used verbatim by e.g. the NIRISS imaging notebook):

```python
urllib.request.urlretrieve(boxlink, boxfile)
zf = zipfile.ZipFile(boxfile, 'r')
zf.extractall()
```

The local filesystem is a list of (path, entry) pairs with paths relative
to the notebook's working directory; `extractall()` with no argument
writes each archive member at its member path relative to that directory.
-/

/-- A stored file: a plain file, or a zip archive with named members. -/
inductive Entry where
  | plain (data : Nat)
  | zip (members : List (String × Nat))
deriving DecidableEq

/-- The local filesystem; later writes are consed at the front and shadow
earlier ones. -/
abbrev FS := List (String × Entry)

/-- `urllib.request.urlretrieve(url, out)`: download the remote content at
`url` to the local path `out`. -/
def urlretrieve (remote : String → Entry) (url out : String) (fs : FS) : FS :=
  (out, remote url) :: fs

/-- Read the entry stored at a path (most recent write wins). -/
def readFile (fs : FS) (p : String) : Option Entry :=
  (fs.find? (fun e => e.fst == p)).map Prod.snd

/-- `zipfile.ZipFile(arch, 'r').extractall()`: write every member of the
archive stored at `arch` into the current working directory. -/
def extractall (fs : FS) (arch : String) : FS :=
  match readFile fs arch with
  | some (Entry.zip ms) => ms.map (fun m => (m.fst, Entry.plain m.snd)) ++ fs
  | _ => fs

/-- The helper: download the file at `url` to `out`, then extract it. -/
def downloadAndExtract (remote : String → Entry) (url out : String)
    (fs : FS) : FS :=
  extractall (urlretrieve remote url out fs) out

end DataDownload

/-- C3: given a Box URL holding a zip archive and a local output path, the
helper first downloads the archive to that path and then extracts the
members of exactly that downloaded archive into the current working
directory, leaving the archive file in place: afterwards the output path
holds the archive, every member is present as a plain file at its member
path, and no pre-existing file has been removed. -/
theorem c3_download_extract (remote : String → DataDownload.Entry)
    (url out : String) (fs : DataDownload.FS)
    (ms : List (String × Nat)) (hurl : remote url = DataDownload.Entry.zip ms) :
    DataDownload.readFile (DataDownload.urlretrieve remote url out fs) out =
      some (DataDownload.Entry.zip ms) ∧
    (out, DataDownload.Entry.zip ms) ∈
      DataDownload.downloadAndExtract remote url out fs ∧
    (∀ m ∈ ms, (m.fst, DataDownload.Entry.plain m.snd) ∈
      DataDownload.downloadAndExtract remote url out fs) ∧
    (∀ e ∈ fs, e ∈ DataDownload.downloadAndExtract remote url out fs) := by
  have hread : DataDownload.readFile
      (DataDownload.urlretrieve remote url out fs) out =
      some (DataDownload.Entry.zip ms) := by
    simp [DataDownload.readFile, DataDownload.urlretrieve, List.find?_cons, hurl]
  have hfinal : DataDownload.downloadAndExtract remote url out fs =
      ms.map (fun m => (m.fst, DataDownload.Entry.plain m.snd)) ++
        (out, DataDownload.Entry.zip ms) :: fs := by
    rw [DataDownload.downloadAndExtract, DataDownload.extractall, hread]
    rw [DataDownload.urlretrieve, hurl]
  refine ⟨hread, ?_, ?_, ?_⟩
  · rw [hfinal]
    exact List.mem_append_right _ (List.mem_cons_self _ _)
  · intro m hm
    rw [hfinal]
    exact List.mem_append_left _ (List.mem_map_of_mem _ hm)
  · intro e he
    rw [hfinal]
    exact List.mem_append_right _ (List.mem_cons_of_mem _ he)

/-- Witness for C3 at a concrete input: an archive with one member
`data/m1.fits`, downloaded to `./example.zip` on an empty directory. -/
theorem c3_download_extract_witness :
    ("./example.zip",
      DataDownload.Entry.zip [("data/m1.fits", 3)]) ∈
      DataDownload.downloadAndExtract
        (fun _ => DataDownload.Entry.zip [("data/m1.fits", 3)])
        "https://data.science.stsci.edu/redirect/JWST/jwst-data_analysis_tools/example_folder/example.zip"
        "./example.zip" [] ∧
    ("data/m1.fits", DataDownload.Entry.plain 3) ∈
      DataDownload.downloadAndExtract
        (fun _ => DataDownload.Entry.zip [("data/m1.fits", 3)])
        "https://data.science.stsci.edu/redirect/JWST/jwst-data_analysis_tools/example_folder/example.zip"
        "./example.zip" [] := by
  have h := c3_download_extract
    (fun _ => DataDownload.Entry.zip [("data/m1.fits", 3)])
    "https://data.science.stsci.edu/redirect/JWST/jwst-data_analysis_tools/example_folder/example.zip"
    "./example.zip" [] [("data/m1.fits", 3)] rfl
  exact ⟨h.2.1, h.2.2.1 _ (List.mem_singleton_self _)⟩

namespace Deploy

/-!
Embedding of the CircleCI gh-pages deployment script:

```bash
if [ -z "${CIRCLE_PULL_REQUEST}" ]; then
    git config --global user.email devnull@circleci.com
    ...
    git clone -b gh-pages --single-branch ${CIRCLE_REPOSITORY_URL} /tmp/out
    ...
    git commit -m '...' -a || true
    git push origin gh-pages
    git clean -dfx
fi
exit 0
```

The script is modelled as the list of effectful steps it runs and its exit
status, as a function of the `CIRCLE_PULL_REQUEST` environment variable
(the git commands are assumed to succeed, the case the claim is about).
-/

/-- The effectful steps of the deployment script, in source order. -/
inductive Step where
  | configGit
  | setupSsh
  | cloneGhPages
  | assemblePages
  | commitGhPages
  | pushGhPages
  | cleanWorkspace
deriving DecidableEq

/-- The script: the guarded block runs only when `CIRCLE_PULL_REQUEST` is
empty (`[ -z "${CIRCLE_PULL_REQUEST}" ]`); the final `exit 0` always runs. -/
def deployScript (circlePullRequest : String) : List Step × Nat :=
  if circlePullRequest = "" then
    ([Step.configGit, Step.setupSsh, Step.cloneGhPages, Step.assemblePages,
      Step.commitGhPages, Step.pushGhPages, Step.cleanWorkspace], 0)
  else ([], 0)

end Deploy

/-- C4: the CircleCI deployment script publishes to gh-pages only when
`CIRCLE_PULL_REQUEST` is empty: the push (likewise the clone and the
commit) occurs iff the variable is the empty string, and in a pull-request
context (nonempty variable) the script runs no step at all and still exits
with status 0. -/
theorem c4_deploy_gate (cpr : String) :
    (Deploy.Step.pushGhPages ∈ (Deploy.deployScript cpr).fst ↔ cpr = "") ∧
    (Deploy.Step.cloneGhPages ∈ (Deploy.deployScript cpr).fst ↔ cpr = "") ∧
    (Deploy.Step.commitGhPages ∈ (Deploy.deployScript cpr).fst ↔ cpr = "") ∧
    (cpr ≠ "" → (Deploy.deployScript cpr).fst = []) ∧
    (Deploy.deployScript cpr).snd = 0 := by
  unfold Deploy.deployScript
  by_cases h : cpr = "" <;> simp [h]

/-- Witness for C4 at a concrete input: in a pull-request context the
script runs nothing and exits 0. -/
theorem c4_deploy_gate_witness :
    (Deploy.deployScript
      "https://github.com/spacetelescope/jdat_notebooks/pull/1").fst = [] ∧
    (Deploy.deployScript
      "https://github.com/spacetelescope/jdat_notebooks/pull/1").snd = 0 := by
  have h := c4_deploy_gate
    "https://github.com/spacetelescope/jdat_notebooks/pull/1"
  exact ⟨h.2.2.2.1 (by decide), h.2.2.2.2⟩

namespace Retry

/-!
Embedding of the git-push retry loops.

"Build HTML on merge", `execute-notebooks` job:

```bash
MAX_RETRIES=5
RETRY_DELAY=10s
for i in $(seq 1 $MAX_RETRIES); do
  git push origin gh-storage --force && break || {
    echo "Push $i failed... waiting $RETRY_DELAY"
    sleep $RETRY_DELAY
  }
done
```

"Deprecate Notebook" workflow:

```bash
MAX_RETRIES=10
RETRY_DELAY=30s
success=false
for i in $(seq 1 $MAX_RETRIES); do
  git fetch origin gh-storage
  git rebase origin/gh-storage
  if git push origin gh-storage --force; then
    success=true
    break
  else
    echo "Push $i failed... waiting $RETRY_DELAY"
    sleep $RETRY_DELAY
  fi
done
```

`pushOk i` says whether the push attempted at loop index `i` succeeds.
-/

/-- Run the `for i in $(seq 1 $MAX_RETRIES)` loop over the given index
list: returns how many push attempts were executed and whether the loop
broke on a success. -/
def runRetry (pushOk : Nat → Bool) : List Nat → Nat × Bool
  | [] => (0, false)
  | i :: rest =>
    if pushOk i then (1, true)
    else
      let r := runRetry pushOk rest
      (r.fst + 1, r.snd)

/-- `$(seq 1 n)`. -/
def seqTo (n : Nat) : List Nat := List.range' 1 n

/-- The "Build HTML on merge" push loop (`MAX_RETRIES=5`). -/
def buildHtmlPush (pushOk : Nat → Bool) : Nat × Bool :=
  runRetry pushOk (seqTo 5)

/-- The "Deprecate Notebook" push loop (`MAX_RETRIES=10`). -/
def deprecatePush (pushOk : Nat → Bool) : Nat × Bool :=
  runRetry pushOk (seqTo 10)

theorem runRetry_fst_le (pushOk : Nat → Bool) (l : List Nat) :
    (runRetry pushOk l).fst ≤ l.length := by
  induction l with
  | nil => simp [runRetry]
  | cons i rest ih =>
    rw [runRetry]
    by_cases h : pushOk i = true
    · simp [h]
    · rw [if_neg h]
      simpa using Nat.succ_le_succ ih

theorem runRetry_snd_iff (pushOk : Nat → Bool) (l : List Nat) :
    (runRetry pushOk l).snd = true ↔ ∃ i ∈ l, pushOk i = true := by
  induction l with
  | nil => simp [runRetry]
  | cons i rest ih =>
    rw [runRetry]
    by_cases h : pushOk i = true
    · simp [h]
    · rw [if_neg h]
      simp only [List.mem_cons]
      constructor
      · intro hs
        obtain ⟨j, hj, hok⟩ := ih.mp hs
        exact ⟨j, Or.inr hj, hok⟩
      · rintro ⟨j, hj | hj, hok⟩
        · exact absurd (hj ▸ hok) h
        · exact ih.mpr ⟨j, hj, hok⟩

theorem runRetry_all_fail (pushOk : Nat → Bool) (l : List Nat)
    (h : ∀ i, pushOk i = false) : (runRetry pushOk l).fst = l.length := by
  induction l with
  | nil => rfl
  | cons i rest ih =>
    rw [runRetry, if_neg (by rw [h i]; exact Bool.false_ne_true)]
    show (runRetry pushOk rest).fst + 1 = rest.length + 1
    rw [ih]

end Retry

/-- C5: the claim that no script or workflow re-attempts a failed operation
is false: the "Deprecate Notebook" workflow's push loop executes 10 push
attempts when the push keeps failing (and the "Build HTML on merge" loop
executes 5), i.e. a failed git push is re-attempted. -/
theorem c5_counterexample :
    (Retry.deprecatePush (fun _ => false)).fst = 10 ∧
    (Retry.buildHtmlPush (fun _ => false)).fst = 5 ∧
    1 < (Retry.deprecatePush (fun _ => false)).fst := by
  decide

/-- C5 (amended): the repository's failure handling goes beyond single
attempts in exactly one pattern: the git pushes to gh-storage in the
"Build HTML on merge" and "Deprecate Notebook" workflows are retried up to
5 and 10 times respectively, stopping at the first success (a first-try
success means a single attempt, and only persistent failure exhausts the
bound). -/
theorem c5_push_retry (pushOk : Nat → Bool) :
    (Retry.buildHtmlPush pushOk).fst ≤ 5 ∧
    (Retry.deprecatePush pushOk).fst ≤ 10 ∧
    ((Retry.deprecatePush pushOk).snd = true ↔
      ∃ i ∈ Retry.seqTo 10, pushOk i = true) ∧
    (pushOk 1 = true → (Retry.deprecatePush pushOk).fst = 1) ∧
    ((∀ i, pushOk i = false) → (Retry.deprecatePush pushOk).fst = 10) := by
  refine ⟨?_, ?_, ?_, ?_, ?_⟩
  · exact (Retry.runRetry_fst_le pushOk (Retry.seqTo 5)).trans (by decide)
  · exact (Retry.runRetry_fst_le pushOk (Retry.seqTo 10)).trans (by decide)
  · exact Retry.runRetry_snd_iff pushOk (Retry.seqTo 10)
  · intro h1
    rw [Retry.deprecatePush, Retry.seqTo]
    rw [show List.range' 1 10 = 1 :: List.range' 2 9 from rfl, Retry.runRetry,
      if_pos h1]
  · intro hall
    rw [Retry.deprecatePush, Retry.runRetry_all_fail pushOk _ hall]
    rfl

/-- Witness for C5 (amended) at a concrete input: a push that succeeds
immediately is attempted exactly once. -/
theorem c5_push_retry_witness :
    (Retry.deprecatePush (fun _ => true)).fst = 1 :=
  (c5_push_retry (fun _ => true)).2.2.2.1 rfl

namespace SetupEnv

/-!
Embedding of the CircleCI conda environment setup script:

```bash
if [[ ! -d /opt/conda/envs/notebooks_env ]]; then
    conda info --envs
    conda env update --file=jdat_notebooks/environment.yml
    source activate notebooks_env
    conda info --envs
else
    echo "Using cached miniconda environment";
fi
```

and of the nbcollection setup scripts (`.circleci/setup-env.sh`), which
run their installation steps unconditionally.
-/

/-- The steps the setup scripts can run. -/
inductive Step where
  | condaInfo
  | condaEnvUpdate
  | activateEnv
  | echoCachedMessage
  | cloneNbcollection
  | pipInstallRequirements
  | installNbcollection
deriving DecidableEq

/-- The conda setup script, as a function of whether the environment
directory `/opt/conda/envs/notebooks_env` already exists. -/
def condaSetupScript (envDirExists : Bool) : List Step :=
  if envDirExists then [Step.echoCachedMessage]
  else [Step.condaInfo, Step.condaEnvUpdate, Step.activateEnv, Step.condaInfo]

/-- `.circleci/setup-env.sh`: unconditional nbcollection installation. -/
def nbcollectionSetup : List Step :=
  [Step.cloneNbcollection, Step.pipInstallRequirements, Step.installNbcollection]

end SetupEnv

/-- C6: the claim that every run of the CI environment setup performs the
environment creation/update steps is false: when the conda environment
directory already exists, the conda setup script skips
`conda env update` entirely and only reports that the cached environment is
being reused. -/
theorem c6_counterexample :
    SetupEnv.Step.condaEnvUpdate ∉ SetupEnv.condaSetupScript true ∧
    SetupEnv.Step.echoCachedMessage ∈ SetupEnv.condaSetupScript true := by
  decide

/-- C6 (amended): the conda setup script performs the environment
creation/update steps only when the environment directory does not already
exist — when it exists, the previously built environment is reused — while
the nbcollection setup scripts perform their installation steps on every
run. -/
theorem c6_env_caching (envDirExists : Bool) :
    (SetupEnv.Step.condaEnvUpdate ∈ SetupEnv.condaSetupScript envDirExists ↔
      envDirExists = false) ∧
    SetupEnv.Step.cloneNbcollection ∈ SetupEnv.nbcollectionSetup ∧
    SetupEnv.Step.installNbcollection ∈ SetupEnv.nbcollectionSetup := by
  cases envDirExists <;> decide

namespace DataSources

/-!
Inventory of the remote science-data fetches that the notebooks perform at
run time, transcribed from their download cells (one entry per notebook
that downloads remote data: the notebook's path and the URLs/URIs it
fetches).  No notebook reads science data from files committed to the
repository.
-/

/-- The Box redirect prefix named by the claim. -/
def boxUrlBase : List Char :=
  "https://data.science.stsci.edu/redirect/JWST/jwst-data_analysis_tools/".data

/-- The MAST URI scheme used with
`astroquery.mast.Observations.download_file`. -/
def mastUriBase : List Char := "mast:JWST/product/".data

/-- Whether a fetch goes to the Box hosting service. -/
def fetchesBox (url : List Char) : Bool := List.isPrefixOf boxUrlBase url

/-- Whether a fetch goes to the MAST archive. -/
def fetchesMast (url : List Char) : Bool := List.isPrefixOf mastUriBase url

/-- The MAST URI fetched for the F090W Carina image in
`notebooks/rgb_imviz/imviz_rgb_carina.ipynb`
(`uri = f"mast:JWST/product/{fn}"`). -/
def mastCarinaF090w : List Char :=
  "mast:JWST/product/jw02731-o001_t017_nircam_clear-f090w_i2d.fits".data

/-- The Box URL fetched by the IFU continuum-fit notebook. -/
def ifuHbandUrl : List Char :=
  "https://data.science.stsci.edu/redirect/JWST/jwst-data_analysis_tools/IFU_cube_continuum_fit/NGC4151_Hband.fits".data

/-- The remote fetches of `notebooks/rgb_imviz/imviz_rgb_carina.ipynb`. -/
def rgbImvizFetches : List (List Char) :=
  [mastCarinaF090w,
   "mast:JWST/product/jw02731-o001_t017_nircam_clear-f187n_i2d.fits".data,
   "mast:JWST/product/jw02731-o001_t017_nircam_clear-f200w_i2d.fits".data,
   "mast:JWST/product/jw02731-o001_t017_nircam_clear-f335m_i2d.fits".data,
   "mast:JWST/product/jw02731-o001_t017_nircam_clear-f444w_i2d.fits".data,
   "mast:JWST/product/jw02731-o001_t017_nircam_f444w-f470n_i2d.fits".data]

/-- The per-notebook inventory of run-time remote data fetches. -/
def notebookRemoteFetches : List (List Char × List (List Char)) :=
  [("notebooks/IFU_cube_continuum_fit/NGC4151_FeII_ContinuumFit.ipynb".data,
    [ifuHbandUrl]),
   ("notebooks/NIRISS/niriss_imaging/niriss-imaging-tutorial.ipynb".data,
    ["https://data.science.stsci.edu/redirect/JWST/jwst-data_analysis_tools/niriss_imaging/1475_f150w.zip".data]),
   ("notebooks/preimaging/preimaging_01_mirage.ipynb".data,
    ["https://data.science.stsci.edu/redirect/JWST/jwst-data_analysis_tools/preimaging_notebooks/preimaging.zip".data]),
   ("notebooks/NIRSpec/mos_spectroscopy_advanced/MOSspec_advanced.ipynb".data,
    ["https://data.science.stsci.edu/redirect/JWST/jwst-data_analysis_tools/mos_spectroscopy/mos_spectroscopy.zip".data,
     "https://data.science.stsci.edu/redirect/JWST/jwst-data_analysis_tools/mos_spectroscopy/mos_ceers_data.zip".data]),
   ("notebooks/NIRCam/psf_photometry_basics/psf_photometry_basics.ipynb".data,
    ["https://data.science.stsci.edu/redirect/JWST/jwst-data_analysis_tools/stpsf_grid/nircam_nrca1_f200w_fovp101_samp4_npsf16.fits".data]),
   ("notebooks/rgb_imviz/imviz_rgb_carina.ipynb".data, rgbImvizFetches)]

end DataSources

/-- C7: the claim that every notebook needing remote data fetches it from a
`https://data.science.stsci.edu/redirect/JWST/jwst-data_analysis_tools/...`
Box URL is false: `notebooks/rgb_imviz/imviz_rgb_carina.ipynb` downloads
its science data from the MAST archive via `mast:JWST/product/...` URIs,
which do not carry the Box prefix. -/
theorem c7_counterexample :
    ("notebooks/rgb_imviz/imviz_rgb_carina.ipynb".data,
      DataSources.rgbImvizFetches) ∈ DataSources.notebookRemoteFetches ∧
    DataSources.mastCarinaF090w ∈ DataSources.rgbImvizFetches ∧
    DataSources.fetchesBox DataSources.mastCarinaF090w = false := by
  decide

/-- C7 (amended): every notebook that needs remote data downloads it at run
time from an external hosting service rather than from files committed to
the repository: each fetched URL/URI either carries the Box prefix
`https://data.science.stsci.edu/redirect/JWST/jwst-data_analysis_tools/`
or is a MAST `mast:JWST/product/...` URI (the latter occurring only in the
Imviz RGB Carina notebook). -/
theorem c7_remote_sources :
    ∀ e ∈ DataSources.notebookRemoteFetches, ∀ url ∈ e.snd,
      DataSources.fetchesBox url = true ∨ DataSources.fetchesMast url = true := by
  decide

/-- Witness for C7 (amended) at a concrete input: the IFU continuum-fit
notebook's download URL carries the Box prefix. -/
theorem c7_remote_sources_witness :
    DataSources.fetchesBox DataSources.ifuHbandUrl = true ∨
    DataSources.fetchesMast DataSources.ifuHbandUrl = true :=
  c7_remote_sources
    ("notebooks/IFU_cube_continuum_fit/NGC4151_FeII_ContinuumFit.ipynb".data,
      [DataSources.ifuHbandUrl]) (by decide) DataSources.ifuHbandUrl (by decide)

namespace Deprecate

/-!
Embedding of the "Deprecate Notebook" GitHub Actions workflow:

```bash
NOTEBOOK_PATH=$(find ./notebooks -name "$NOTEBOOK_NAME" -type f)
if [ -z "$NOTEBOOK_PATH" ]; then
  echo "::error::Notebook '${NOTEBOOK_NAME}' not found in the notebooks directory."
  exit 1
fi
...
timestamp=$(date -u +"%Y-%m-%dT%H:%M:%SZ")
removal_date=$(date -u -d "$timestamp + 30 days" +"%Y-%m-%dT%H:%M:%SZ")
jq --arg ts "$timestamp" --arg rd "$removal_date" \
  '.metadata.deprecated = { "status": true, "timestamp": $ts, "removal_date": $rd }' ...
...
jq ".cells |= [$BANNER_CELL] + ." ...
...
for i in $(seq 1 $MAX_RETRIES); do ... git push origin gh-storage --force ... done
if [ "$success" = false ]; then ... exit 1; fi
```

UTC timestamps are modelled as seconds since the epoch, so
`+ 30 days` is `+ 30 * 86400`.  The repository checkout is the association
list of its notebook files; the workflow's `find` is a basename match
under `./notebooks` (names are unique in practice, so the first match is
the notebook acted on).
-/

open Paths

/-- One notebook cell: the deprecation banner markdown cell the workflow
constructs (holding the timestamp and removal date it renders), or a cell
of the original notebook. -/
inductive Cell where
  | banner (timestamp removalDate : Nat)
  | ordinary (id : Nat)
deriving DecidableEq

/-- Whether a cell is a deprecation banner cell. -/
def isBannerCell : Cell → Bool
  | Cell.banner _ _ => true
  | Cell.ordinary _ => false

/-- The `.metadata.deprecated` record written by the jq step. -/
structure DeprecatedMeta where
  status : Bool
  timestamp : Nat
  removal_date : Nat
deriving DecidableEq

/-- An `.ipynb` file: its cell list and its `.metadata.deprecated` field. -/
structure Notebook where
  cells : List Cell
  deprecated : Option DeprecatedMeta
deriving DecidableEq

/-- Seconds in a day (`date -u -d "... + 30 days"` on UTC timestamps). -/
def daySeconds : Nat := 86400

/-- The "Add deprecated tag" step:
`.metadata.deprecated = {status: true, timestamp: $ts, removal_date: $rd}`
with `rd` 30 days after `ts`. -/
def addDeprecatedTag (ts : Nat) (nb : Notebook) : Notebook :=
  { nb with deprecated := some ⟨true, ts, ts + 30 * daySeconds⟩ }

/-- The "Add deprecation banner" step: `.cells |= [$BANNER_CELL] + .`. -/
def addBanner (ts : Nat) (nb : Notebook) : Notebook :=
  { nb with cells := Cell.banner ts (ts + 30 * daySeconds) :: nb.cells }

/-- The repository files whose basename matches the requested notebook
name (`find ./notebooks -name "$NOTEBOOK_NAME" -type f`). -/
def findMatches (repo : List (Path × Notebook)) (nameChars : Path) :
    List (Path × Notebook) :=
  repo.filter (fun e => decide (basename e.fst = nameChars))

/-- The paths of the matching files. -/
def findPaths (repo : List (Path × Notebook)) (nameChars : Path) : List Path :=
  (findMatches repo nameChars).map Prod.fst

/-- Overwrite the notebook stored at path `p`. -/
def updateRepo (repo : List (Path × Notebook)) (p : Path) (nb : Notebook) :
    List (Path × Notebook) :=
  repo.map (fun e => if e.fst = p then (p, nb) else e)

/-- Result of a workflow run: exit status, final repository content, and
whether the push to gh-storage went through. -/
structure RunResult where
  exitCode : Nat
  repo : List (Path × Notebook)
  pushed : Bool
deriving DecidableEq

/-- The whole workflow: find the notebook (exit 1 without touching the
repository when it is absent); otherwise add the deprecated tag, prepend
the banner cell, and push with the 10-attempt retry loop (exit 1 when no
attempt succeeds). -/
def deprecateWorkflow (repo : List (Path × Notebook)) (nameChars : Path)
    (ts : Nat) (pushOk : Nat → Bool) : RunResult :=
  match findMatches repo nameChars with
  | [] => ⟨1, repo, false⟩
  | e :: _ =>
    let nb2 := addBanner ts (addDeprecatedTag ts e.snd)
    let repo2 := updateRepo repo e.fst nb2
    let r := Retry.runRetry pushOk (Retry.seqTo 10)
    ⟨if r.snd then 0 else 1, repo2, r.snd⟩

/-- A one-notebook repository used to instantiate the claims. -/
def demoRepo : List (Path × Notebook) :=
  [("notebooks/example.ipynb".data, ⟨[Cell.ordinary 0], none⟩)]

end Deprecate

/-- C10: the claim that the "Deprecate Notebook" workflow fails (exits 1)
if and only if no file with the given name exists is false: the workflow's
final push step also exits 1 when the push to gh-storage fails on all 10
attempts, even though the notebook was found (and modified).  Concretely,
on a repository containing `notebooks/example.ipynb`, with every push
attempt failing, the run exits 1 although the lookup succeeded. -/
theorem c10_counterexample :
    Deprecate.findPaths Deprecate.demoRepo "example.ipynb".data ≠ [] ∧
    (Deprecate.deprecateWorkflow Deprecate.demoRepo "example.ipynb".data 0
      (fun _ => false)).exitCode = 1 := by
  decide

/-- C10 (amended): the workflow exits 1 iff no file with the given notebook
name exists under the notebooks directory, or the final push to gh-storage
fails on all 10 attempts; in the not-found case it terminates before
modifying any notebook; and when the file is found it adds a
`metadata.deprecated` record whose `removal_date` is exactly 30 days after
the recorded timestamp and prepends exactly one deprecation banner cell at
position 0 of the notebook's cell list. -/
theorem c10_deprecate_workflow (repo : List (Paths.Path × Deprecate.Notebook))
    (nameChars : Paths.Path) (ts : Nat) (pushOk : Nat → Bool) :
    ((Deprecate.deprecateWorkflow repo nameChars ts pushOk).exitCode = 1 ↔
      (Deprecate.findMatches repo nameChars = [] ∨
        (Retry.runRetry pushOk (Retry.seqTo 10)).snd = false)) ∧
    (Deprecate.findMatches repo nameChars = [] →
      (Deprecate.deprecateWorkflow repo nameChars ts pushOk).repo = repo) ∧
    (∀ p nb rest, Deprecate.findMatches repo nameChars = (p, nb) :: rest →
      (Deprecate.deprecateWorkflow repo nameChars ts pushOk).repo =
        Deprecate.updateRepo repo p
          (Deprecate.addBanner ts (Deprecate.addDeprecatedTag ts nb)) ∧
      (Deprecate.addBanner ts (Deprecate.addDeprecatedTag ts nb)).deprecated =
        some ⟨true, ts, ts + 30 * Deprecate.daySeconds⟩ ∧
      (Deprecate.addBanner ts (Deprecate.addDeprecatedTag ts nb)).cells =
        Deprecate.Cell.banner ts (ts + 30 * Deprecate.daySeconds) :: nb.cells ∧
      ((∀ c ∈ nb.cells, Deprecate.isBannerCell c = false) →
        (Deprecate.addBanner ts (Deprecate.addDeprecatedTag ts nb)).cells.countP
          Deprecate.isBannerCell = 1)) := by
  cases hm : Deprecate.findMatches repo nameChars with
  | nil =>
    refine ⟨?_, ?_, ?_⟩
    · simp [Deprecate.deprecateWorkflow, hm]
    · intro _
      simp [Deprecate.deprecateWorkflow, hm]
    · intro p nb rest h
      exact absurd h (by simp)
  | cons e rest0 =>
    refine ⟨?_, ?_, ?_⟩
    · simp only [Deprecate.deprecateWorkflow, hm]
      cases hs : (Retry.runRetry pushOk (Retry.seqTo 10)).snd <;>
        simp [hs, hm]
    · intro h0
      exact absurd h0 (by simp)
    · intro p nb rest h
      injection h with h1 h2
      subst h1
      refine ⟨?_, rfl, rfl, ?_⟩
      · simp only [Deprecate.deprecateWorkflow, hm]
      · intro hnone
        show List.countP _ (Deprecate.Cell.banner _ _ :: nb.cells) = 1
        rw [List.countP_cons]
        have h0 : nb.cells.countP Deprecate.isBannerCell = 0 :=
          List.countP_eq_zero.mpr (fun c hc => by simp [hnone c hc])
        simp [h0, Deprecate.isBannerCell]

/-- Witness for C10 (amended) at a concrete input: on a repository holding
`notebooks/example.ipynb` (one ordinary cell, no deprecation metadata),
with the push succeeding, the run stores the tagged-and-bannered notebook,
and the new cell list carries exactly one banner cell. -/
theorem c10_deprecate_workflow_witness :
    (Deprecate.deprecateWorkflow Deprecate.demoRepo "example.ipynb".data 100
      (fun _ => true)).repo =
      Deprecate.updateRepo Deprecate.demoRepo "notebooks/example.ipynb".data
        (Deprecate.addBanner 100
          (Deprecate.addDeprecatedTag 100 ⟨[Deprecate.Cell.ordinary 0], none⟩)) ∧
    (Deprecate.addBanner 100
      (Deprecate.addDeprecatedTag 100
        ⟨[Deprecate.Cell.ordinary 0], none⟩)).cells.countP
      Deprecate.isBannerCell = 1 := by
  have h := (c10_deprecate_workflow Deprecate.demoRepo "example.ipynb".data 100
    (fun _ => true)).2.2 "notebooks/example.ipynb".data
    ⟨[Deprecate.Cell.ordinary 0], none⟩ [] (by decide)
  exact ⟨h.1, h.2.2.2 (by decide)⟩
